import Mathlib

/-!
Verification development for the song-classifier repository.

The definitions below are a shallow embedding of the Python sources:
  * `src/src/data/models.py`   — `AlbumMetadata`, `TrackMetadata` and their CSV (de)serialization
  * `src/src/data/__init__.py` — the CSV-backed record store (get/upsert, legacy migration)
  * `src/src/main.py`          — `classify_filename`, the per-asset pipeline
  * `src/src/cli.py`           — `cmd_process` interrupt handling
  * `src/src/utils/file_metadata.py`  — comment-merge of the processed marker
  * `src/src/utils/file_transport.py` — `LocalTransport.list_files`, `is_audio_file`
  * `src/src/utils/git_sync.py`       — `push_metadata`

Python dynamic values are embedded with explicit sum/option types; Python
string truthiness (`if key:`) is made explicit wherever the code relies on it.
-/

/-! ## Data model (`src/src/data/models.py`) -/

/-- `AlbumMetadata` dataclass: `{name, artist}`. -/
structure AlbumMetadata where
  name : String
  artist : String
deriving DecidableEq, Repr

/-- `TrackMetadata` dataclass; `date: Optional[str]`. -/
structure TrackMetadata where
  key : String
  track : String
  artist : String
  album : AlbumMetadata
  genre : String
  date : Option String
deriving DecidableEq, Repr

/-- A row of the current-schema asset CSV table (fieldnames
`["key", "track", "artist", "album_name", "album_artist", "genre", "date"]`).
All cells are strings, as produced by `csv.DictReader`. -/
structure TrackRow where
  key : String
  track : String
  artist : String
  album_name : String
  album_artist : String
  genre : String
  date : String
deriving DecidableEq, Repr

/-- A row of the album CSV table (fieldnames `["name", "artist"]`). -/
structure AlbumRow where
  name : String
  artist : String
deriving DecidableEq, Repr

/-- A row of the legacy asset table: a single combined `album` column
(fieldnames `["key", "track", "artist", "album", "genre", "date"]`). -/
structure LegacyTrackRow where
  key : String
  track : String
  artist : String
  album : String
  genre : String
  date : String
deriving DecidableEq, Repr

/-- `AlbumMetadata.to_csv_row`. -/
def AlbumMetadata.to_csv_row (a : AlbumMetadata) : AlbumRow :=
  { name := a.name, artist := a.artist }

/-- `AlbumMetadata.from_csv_row`. -/
def AlbumMetadata.from_csv_row (row : AlbumRow) : AlbumMetadata :=
  { name := row.name, artist := row.artist }

/-- `TrackMetadata.to_csv_row`; the `date` cell is `self.date or ""`:
`None` and `""` both serialize to `""`, any other string to itself —
which is exactly `Option.getD "" `. -/
def TrackMetadata.to_csv_row (t : TrackMetadata) : TrackRow :=
  { key := t.key
    track := t.track
    artist := t.artist
    album_name := t.album.name
    album_artist := t.album.artist
    genre := t.genre
    date := t.date.getD "" }

/-- `TrackMetadata.from_csv_row`; `date=row["date"] or None` maps the empty
cell to `None` and any non-empty cell to itself. -/
def TrackMetadata.from_csv_row (row : TrackRow) : TrackMetadata :=
  { key := row.key
    track := row.track
    artist := row.artist
    album := { name := row.album_name, artist := row.album_artist }
    genre := row.genre
    date := if row.date = "" then none else some row.date }

/-! ## Record store (`src/src/data/__init__.py`) -/

/-- `_migrate_legacy_track_row`: copy the legacy `album` cell into
`album_name`, and default `album_artist` to the row's track `artist`. -/
def migrate_legacy_track_row (row : LegacyTrackRow) : TrackRow :=
  { key := row.key
    track := row.track
    artist := row.artist
    album_name := row.album
    album_artist := row.artist
    genre := row.genre
    date := row.date }

/-- `_read_track_metadata` on a current-schema file: parse every row. -/
def read_track_metadata (fileRows : List TrackRow) : List TrackMetadata :=
  fileRows.map TrackMetadata.from_csv_row

/-- `_read_track_metadata` on a legacy-schema file: `_is_legacy_track_format`
is true, so every row is migrated in memory before parsing. -/
def read_legacy_track_metadata (fileRows : List LegacyTrackRow) : List TrackMetadata :=
  (fileRows.map migrate_legacy_track_row).map TrackMetadata.from_csv_row

/-- `_read_album_metadata`: parse every row. -/
def read_album_metadata (fileRows : List AlbumRow) : List AlbumMetadata :=
  fileRows.map AlbumMetadata.from_csv_row

/-- Result of `get_file_metadata` / `get_album_metadata`, whose Python return
type is `Record | list[Record] | None` depending on the truthiness of `key`. -/
inductive TrackQueryResult where
  | one : Option TrackMetadata → TrackQueryResult
  | all : List TrackMetadata → TrackQueryResult
deriving DecidableEq, Repr

/-- Result of `get_album_metadata`. -/
inductive AlbumQueryResult where
  | one : Option AlbumMetadata → AlbumQueryResult
  | all : List AlbumMetadata → AlbumQueryResult
deriving DecidableEq, Repr

/-- Python truthiness of the optional string argument `key` (`if key:`):
`None` and `""` are falsy. -/
def pyTruthyStr : Option String → Bool
  | none => false
  | some s => !s.isEmpty

/-- `get_file_metadata(key=None)`: loads the asset table; when `key` is truthy
returns the first track with that key (`next(..., None)`), otherwise the whole
list. -/
def get_file_metadata (fileRows : List TrackRow) (key : Option String) : TrackQueryResult :=
  let tracks := read_track_metadata fileRows
  if pyTruthyStr key then
    .one (tracks.find? (fun t => t.key == key.getD ""))
  else
    .all tracks

/-- `get_album_metadata(key=None)`: analogous, matching on album `name`. -/
def get_album_metadata (fileRows : List AlbumRow) (key : Option String) : AlbumQueryResult :=
  let albums := read_album_metadata fileRows
  if pyTruthyStr key then
    .one (albums.find? (fun a => a.name == key.getD ""))
  else
    .all albums

/-- The row-list update inside `upsert_track_metadata`: replace the first row
whose `key` matches, else append at the end. -/
def upsertTrackRows (rows : List TrackRow) (key : String) (newRow : TrackRow) : List TrackRow :=
  match rows with
  | [] => [newRow]
  | r :: rest => if r.key == key then newRow :: rest else r :: upsertTrackRows rest key newRow

/-- `upsert_track_metadata`: read the table into records, flatten each record
back to a row (`rows = [t.to_csv_row() for t in existing]`), replace the first
row with the same key (else append), and write the table back. The state it
transforms is the on-disk row list. -/
def upsert_track_metadata (fileRows : List TrackRow) (t : TrackMetadata) : List TrackRow :=
  let existing := read_track_metadata fileRows
  let rows := existing.map TrackMetadata.to_csv_row
  upsertTrackRows rows t.key t.to_csv_row

/-- The row-list update inside `upsert_album_metadata`: the first row whose
`name` matches gets its `artist` cell overwritten, else the new row is
appended. -/
def upsertAlbumRows (rows : List AlbumRow) (album : AlbumMetadata) : List AlbumRow :=
  match rows with
  | [] => [album.to_csv_row]
  | r :: rest =>
      if r.name == album.name then { r with artist := album.artist } :: rest
      else r :: upsertAlbumRows rest album

/-- `upsert_album_metadata`. -/
def upsert_album_metadata (fileRows : List AlbumRow) (album : AlbumMetadata) : List AlbumRow :=
  let existing := read_album_metadata fileRows
  let rows := existing.map AlbumMetadata.to_csv_row
  upsertAlbumRows rows album

/-! ### Round-trip lemmas for the store -/

/-- Row-level round trip: flattening a parsed row reproduces the row
(the empty `date` cell goes to `none` and back to `""`). -/
theorem to_from_csv_row (row : TrackRow) :
    (TrackMetadata.from_csv_row row).to_csv_row = row := by
  cases row with
  | mk key track artist album_name album_artist genre date =>
      by_cases h : date = "" <;>
        simp [TrackMetadata.from_csv_row, TrackMetadata.to_csv_row, h]

/-- Record-level round trip needs the date to be absent or non-empty. -/
theorem from_to_csv_row (t : TrackMetadata) (h : t.date ≠ some "") :
    TrackMetadata.from_csv_row t.to_csv_row = t := by
  cases t with
  | mk key track artist album genre date =>
      cases album with
      | mk aname aartist =>
          cases date with
          | none => simp [TrackMetadata.to_csv_row, TrackMetadata.from_csv_row]
          | some s =>
              have hs : s ≠ "" := by
                intro hcon
                exact h (by simp [hcon])
              simp [TrackMetadata.to_csv_row, TrackMetadata.from_csv_row, hs]

theorem album_from_to_csv_row (a : AlbumMetadata) :
    AlbumMetadata.from_csv_row a.to_csv_row = a := rfl

theorem read_then_flatten_id (rows : List TrackRow) :
    (read_track_metadata rows).map TrackMetadata.to_csv_row = rows := by
  induction rows with
  | nil => rfl
  | cons r rest ih =>
      simp [read_track_metadata] at ih ⊢
      exact ⟨to_from_csv_row r, ih⟩

theorem album_read_then_flatten_id (rows : List AlbumRow) :
    (read_album_metadata rows).map AlbumMetadata.to_csv_row = rows := by
  induction rows with
  | nil => rfl
  | cons r rest ih =>
      simp [read_album_metadata, AlbumMetadata.from_csv_row, AlbumMetadata.to_csv_row] at ih ⊢
      exact ih

theorem from_csv_row_key (row : TrackRow) :
    (TrackMetadata.from_csv_row row).key = row.key := rfl

/-- After `upsertTrackRows rows k new` with `new.key = k`, looking the key up
among the parsed rows finds exactly the parsed new row. -/
theorem find_after_upsertTrackRows (rows : List TrackRow) (k : String) (newRow : TrackRow)
    (hk : newRow.key = k) :
    (read_track_metadata (upsertTrackRows rows k newRow)).find?
        (fun t => t.key == k) = some (TrackMetadata.from_csv_row newRow) := by
  induction rows with
  | nil =>
      simp [upsertTrackRows, read_track_metadata, List.find?, from_csv_row_key, hk]
  | cons r rest ih =>
      by_cases h : r.key == k
      · simp [upsertTrackRows, h, read_track_metadata, List.find?, from_csv_row_key, hk]
      · simpa [upsertTrackRows, h, read_track_metadata, List.find?, from_csv_row_key] using ih

/-- `upsertTrackRows` leaves a row with the sought key in the table. -/
theorem upsertTrackRows_mem_key (rows : List TrackRow) (k : String) (newRow : TrackRow)
    (hk : newRow.key = k) :
    (upsertTrackRows rows k newRow).any (fun r => r.key == k) = true := by
  induction rows with
  | nil => simp [upsertTrackRows, hk]
  | cons r rest ih =>
      cases h : (r.key == k) with
      | true => simp [upsertTrackRows, h, hk]
      | false =>
          simp only [upsertTrackRows, h, Bool.false_eq_true, if_false, List.any_cons,
            Bool.false_or]
          exact ih

/-- When some row already has the key, `upsertTrackRows` replaces in place and
the length is unchanged. -/
theorem upsertTrackRows_length_of_mem (rows : List TrackRow) (k : String) (newRow : TrackRow)
    (hmem : rows.any (fun r => r.key == k) = true) :
    (upsertTrackRows rows k newRow).length = rows.length := by
  induction rows with
  | nil => simp at hmem
  | cons r rest ih =>
      cases h : (r.key == k) with
      | true => simp [upsertTrackRows, h]
      | false =>
          have hrest : rest.any (fun r => r.key == k) = true := by
            simp only [List.any_cons, h, Bool.false_or] at hmem
            exact hmem
          simp only [upsertTrackRows, h, Bool.false_eq_true, if_false, List.length_cons]
          rw [ih hrest]

/-! ### Sample records used by concrete witnesses -/

def sampleAlbum : AlbumMetadata := { name := "Album", artist := "AlbumArtist" }

def sampleTrack : TrackMetadata :=
  { key := "music/file.mp3", track := "Song", artist := "Artist",
    album := sampleAlbum, genre := "Pop", date := none }

def sampleTrack2 : TrackMetadata :=
  { key := "music/file.mp3", track := "Song Two", artist := "Artist Two",
    album := sampleAlbum, genre := "Rock", date := some "2001" }

/-! ### Claims about the record store -/

/-- C1, as stated, is false: a valid record whose `key` is the empty string is
stored, but `get_file_metadata` with the empty key takes the Python-falsy
branch and returns the whole list instead of the stored record. -/
theorem C1_counterexample :
    ¬ (get_file_metadata
        (upsert_track_metadata []
          { key := "", track := "Song", artist := "Artist",
            album := { name := "Album", artist := "AlbumArtist" },
            genre := "Pop", date := none })
        (some "")
      = TrackQueryResult.one (some
          { key := "", track := "Song", artist := "Artist",
            album := { name := "Album", artist := "AlbumArtist" },
            genre := "Pop", date := none })) := by
  decide

/-- C1 (amended: the record's key must also be non-empty): for every valid
asset record with a non-empty key, `upsert_track_metadata` followed by
`get_file_metadata` on the record's key returns exactly that record, and a
second upsert with the same key leaves the table's row count unchanged. -/
theorem C1_upsert_then_get (rows : List TrackRow) (t t' : TrackMetadata)
    (hdate : t.date ≠ some "") (hkey : t.key ≠ "") (hk' : t'.key = t.key) :
    get_file_metadata (upsert_track_metadata rows t) (some t.key)
      = TrackQueryResult.one (some t) ∧
    (upsert_track_metadata (upsert_track_metadata rows t) t').length
      = (upsert_track_metadata rows t).length := by
  have hup : upsert_track_metadata rows t = upsertTrackRows rows t.key t.to_csv_row := by
    simp [upsert_track_metadata, read_then_flatten_id]
  have hkeyrow : (t.to_csv_row).key = t.key := rfl
  constructor
  · have hne : t.key.isEmpty = false := by
      cases hx : t.key.isEmpty with
      | false => rfl
      | true => exact absurd ((String.isEmpty_iff t.key).mp hx) hkey
    have htruthy : pyTruthyStr (some t.key) = true := by
      simp [pyTruthyStr, hne]
    rw [hup]
    simp only [get_file_metadata, htruthy, if_true, Option.getD_some]
    rw [find_after_upsertTrackRows rows t.key t.to_csv_row hkeyrow]
    rw [from_to_csv_row t hdate]
  · have hX : upsert_track_metadata (upsert_track_metadata rows t) t'
        = upsertTrackRows (upsertTrackRows rows t.key t.to_csv_row) t'.key t'.to_csv_row := by
      rw [hup]
      simp [upsert_track_metadata, read_then_flatten_id]
    rw [hX, hup]
    apply upsertTrackRows_length_of_mem
    rw [hk']
    exact upsertTrackRows_mem_key rows t.key t.to_csv_row hkeyrow

/-- Witness for C1's amended theorem at a concrete store and two concrete
records sharing the key `music/file.mp3`. -/
theorem C1_upsert_then_get_witness :
    get_file_metadata (upsert_track_metadata [] sampleTrack) (some sampleTrack.key)
      = TrackQueryResult.one (some sampleTrack) ∧
    (upsert_track_metadata (upsert_track_metadata [] sampleTrack) sampleTrack2).length
      = (upsert_track_metadata [] sampleTrack).length :=
  C1_upsert_then_get [] sampleTrack sampleTrack2 (by decide) (by decide) (by decide)

/-- C2: `fromRow (toRow record)) = record` for album records always, and for
asset records whose date is absent or non-empty; an absent date serializes to
the empty cell and deserializes back to `none`. -/
theorem C2_round_trip (a : AlbumMetadata) (t : TrackMetadata) (hdate : t.date ≠ some "") :
    AlbumMetadata.from_csv_row a.to_csv_row = a ∧
    TrackMetadata.from_csv_row t.to_csv_row = t ∧
    (t.date = none →
      t.to_csv_row.date = "" ∧ (TrackMetadata.from_csv_row t.to_csv_row).date = none) := by
  refine ⟨album_from_to_csv_row a, from_to_csv_row t hdate, ?_⟩
  intro hnone
  refine ⟨by simp [TrackMetadata.to_csv_row, hnone], ?_⟩
  rw [from_to_csv_row t hdate]
  exact hnone

/-- Witness for C2 at a concrete album and a concrete dateless track. -/
theorem C2_round_trip_witness :
    AlbumMetadata.from_csv_row sampleAlbum.to_csv_row = sampleAlbum ∧
    TrackMetadata.from_csv_row sampleTrack.to_csv_row = sampleTrack ∧
    (sampleTrack.date = none →
      sampleTrack.to_csv_row.date = "" ∧
      (TrackMetadata.from_csv_row sampleTrack.to_csv_row).date = none) :=
  C2_round_trip sampleAlbum sampleTrack (by decide)

/-- C3: reading a legacy-schema asset table preserves the row count, and every
resulting record takes its album name from the legacy `album` cell and its
album artist from the row's track `artist`. -/
theorem C3_legacy_migration (rows : List LegacyTrackRow) :
    (read_legacy_track_metadata rows).length = rows.length ∧
    List.Forall₂ (fun (lr : LegacyTrackRow) (t : TrackMetadata) =>
        t.album.name = lr.album ∧ t.album.artist = lr.artist)
      rows (read_legacy_track_metadata rows) := by
  constructor
  · simp [read_legacy_track_metadata]
  · induction rows with
    | nil => simp [read_legacy_track_metadata]
    | cons r rest ih =>
        simp only [read_legacy_track_metadata, List.map_cons, List.forall₂_cons] at ih ⊢
        exact ⟨⟨rfl, rfl⟩, ih⟩

/-- C10 (implicit): an empty-string key is Python-falsy, so `get_file_metadata`
and `get_album_metadata` fall into the no-key branch and return the entire
table instead of a single-record lookup. -/
theorem C10_empty_key_returns_all (trackRows : List TrackRow) (albumRows : List AlbumRow) :
    get_file_metadata trackRows (some "") = TrackQueryResult.all (read_track_metadata trackRows) ∧
    get_album_metadata albumRows (some "") = AlbumQueryResult.all (read_album_metadata albumRows) :=
  ⟨rfl, rfl⟩

/-! ## Classification pipeline (`src/src/main.py`, `classify_filename`)

The collaborators (transport, tag codec, inference, confirmation UI) are
embedded as oracle inputs, and every call the function makes to one of them is
logged as an event; record-store state is threaded explicitly. -/

/-- One collaborator call made by `classify_filename`. -/
inductive Ev where
  | fetch        -- `file_transport.load_file`
  | readTags     -- `read_file_metadata`
  | removeLocal  -- `os.remove(local_path)`
  | infer        -- `parse_metadata_with_ai`
  | confirm      -- `confirm_metadata`
  | upsertAlbum  -- `upsert_album_metadata`
  | upsertTrack  -- `upsert_track_metadata`
  | writeTags    -- `write_file_metadata`
  | publish      -- `file_transport.save_file`
deriving DecidableEq, Repr

/-- Result of one `classify_filename` run: the returned value, the collaborator
calls made, and the record-store tables afterwards. -/
structure PipelineOutcome where
  result : Option TrackMetadata
  events : List Ev
  tracks : List TrackRow
  albums : List AlbumRow
deriving DecidableEq, Repr

/-- Python truthiness of `get_file_metadata(key=...)`'s return value:
`None` is falsy, a dataclass instance is truthy, a list is truthy iff
non-empty. -/
def getResultTruthy : TrackQueryResult → Bool
  | .one none => false
  | .one (some _) => true
  | .all l => !l.isEmpty

/-- `classify_filename(filename, base_path, file_transport, skip_processed_files,
skip_files_in_metadata, dry_run)`. `isProcessed` is the codec's answer to
`is_already_processed`, `aiResult` the inference collaborator's proposal,
`confirmFn` the confirmation collaborator, and `cleanup_local_files` the
transport's `cleanup_local_files` attribute. -/
def classify_filename (filename : String) (tracks : List TrackRow) (albums : List AlbumRow)
    (skip_processed_files skip_files_in_metadata dry_run : Bool)
    (isProcessed : Bool) (aiResult : TrackMetadata)
    (confirmFn : TrackMetadata → TrackMetadata) (cleanup_local_files : Bool) :
    PipelineOutcome :=
  if skip_files_in_metadata && getResultTruthy (get_file_metadata tracks (some filename)) then
    { result := none, events := [], tracks := tracks, albums := albums }
  else
    let ev := [Ev.fetch, Ev.readTags]
    if skip_processed_files && isProcessed then
      { result := none
        events := ev ++ (if cleanup_local_files then [Ev.removeLocal] else [])
        tracks := tracks, albums := albums }
    else
      let ev := ev ++ [Ev.infer]
      if dry_run then
        { result := some aiResult
          events := ev ++ (if cleanup_local_files then [Ev.removeLocal] else [])
          tracks := tracks, albums := albums }
      else
        let confirmed := confirmFn aiResult
        { result := some confirmed
          events := ev ++ [Ev.confirm, Ev.upsertAlbum, Ev.upsertTrack, Ev.writeTags, Ev.publish]
                       ++ (if cleanup_local_files then [Ev.removeLocal] else [])
          tracks := upsert_track_metadata tracks confirmed
          albums := upsert_album_metadata albums confirmed.album }

theorem find_isSome_of_any {α : Type} (l : List α) (p : α → Bool) (h : l.any p = true) :
    ∃ x, l.find? p = some x := by
  induction l with
  | nil => simp at h
  | cons a rest ih =>
      cases hp : p a with
      | true => exact ⟨a, by simp [List.find?, hp]⟩
      | false =>
          simp only [List.any_cons, hp, Bool.false_or] at h
          obtain ⟨x, hx⟩ := ih h
          exact ⟨x, by simp [List.find?, hp, hx]⟩

/-- C4: when `skip_files_in_metadata` is enabled and the store already has a
record under the asset's key, the pipeline returns `None` immediately: no
collaborator call is made and both tables are left untouched. -/
theorem C4_skip_when_in_store (filename : String) (tracks : List TrackRow)
    (albums : List AlbumRow) (skip_processed_files dry_run : Bool) (isProcessed : Bool)
    (aiResult : TrackMetadata) (confirmFn : TrackMetadata → TrackMetadata)
    (cleanup_local_files : Bool)
    (hknown : (read_track_metadata tracks).any (fun t => t.key == filename) = true) :
    classify_filename filename tracks albums skip_processed_files true dry_run
        isProcessed aiResult confirmFn cleanup_local_files
      = { result := none, events := [], tracks := tracks, albums := albums } := by
  have htr : getResultTruthy (get_file_metadata tracks (some filename)) = true := by
    by_cases hf : filename = ""
    · subst hf
      have hne : (read_track_metadata tracks).isEmpty = false := by
        cases hl : read_track_metadata tracks with
        | nil => rw [hl] at hknown; simp at hknown
        | cons a l => rfl
      have hfalse : pyTruthyStr (some "") = false := rfl
      simp [get_file_metadata, hfalse, getResultTruthy, hne]
    · have hne : filename.isEmpty = false := by
        cases hx : filename.isEmpty with
        | false => rfl
        | true => exact absurd ((String.isEmpty_iff filename).mp hx) hf
      obtain ⟨x, hx⟩ := find_isSome_of_any (read_track_metadata tracks) _ hknown
      simp [get_file_metadata, pyTruthyStr, hne, getResultTruthy, hx]
  simp [classify_filename, htr]

/-- Witness for C4: the store already holds `music/file.mp3`, so the run is a
no-op returning `None`. -/
theorem C4_skip_when_in_store_witness :
    classify_filename "music/file.mp3" [sampleTrack.to_csv_row] [] true true false
        false sampleTrack2 id false
      = { result := none, events := [], tracks := [sampleTrack.to_csv_row], albums := [] } :=
  C4_skip_when_in_store "music/file.mp3" [sampleTrack.to_csv_row] [] true false false
    sampleTrack2 id false (by decide)

/-- C5: a run that reaches the dry-run check with `dry_run` enabled mutates
neither table and never calls the confirmation collaborator, but does invoke
inference and returns the proposed record. -/
theorem C5_dry_run_no_mutation (filename : String) (tracks : List TrackRow)
    (albums : List AlbumRow) (skip_processed_files skip_files_in_metadata : Bool)
    (isProcessed : Bool) (aiResult : TrackMetadata)
    (confirmFn : TrackMetadata → TrackMetadata) (cleanup_local_files : Bool)
    (hnotskip1 : (skip_files_in_metadata
        && getResultTruthy (get_file_metadata tracks (some filename))) = false)
    (hnotskip2 : (skip_processed_files && isProcessed) = false) :
    (classify_filename filename tracks albums skip_processed_files skip_files_in_metadata
        true isProcessed aiResult confirmFn cleanup_local_files).result = some aiResult ∧
    (classify_filename filename tracks albums skip_processed_files skip_files_in_metadata
        true isProcessed aiResult confirmFn cleanup_local_files).tracks = tracks ∧
    (classify_filename filename tracks albums skip_processed_files skip_files_in_metadata
        true isProcessed aiResult confirmFn cleanup_local_files).albums = albums ∧
    Ev.confirm ∉ (classify_filename filename tracks albums skip_processed_files
        skip_files_in_metadata true isProcessed aiResult confirmFn cleanup_local_files).events ∧
    Ev.upsertAlbum ∉ (classify_filename filename tracks albums skip_processed_files
        skip_files_in_metadata true isProcessed aiResult confirmFn cleanup_local_files).events ∧
    Ev.upsertTrack ∉ (classify_filename filename tracks albums skip_processed_files
        skip_files_in_metadata true isProcessed aiResult confirmFn cleanup_local_files).events ∧
    Ev.infer ∈ (classify_filename filename tracks albums skip_processed_files
        skip_files_in_metadata true isProcessed aiResult confirmFn cleanup_local_files).events := by
  cases cleanup_local_files <;> simp [classify_filename, hnotskip1, hnotskip2]

/-- Witness for C5 at a concrete empty store and a fresh asset. -/
theorem C5_dry_run_no_mutation_witness :
    (classify_filename "other.mp3" [] [] true true true false sampleTrack id false).result
      = some sampleTrack ∧
    (classify_filename "other.mp3" [] [] true true true false sampleTrack id false).tracks = [] ∧
    (classify_filename "other.mp3" [] [] true true true false sampleTrack id false).albums = [] ∧
    Ev.confirm ∉ (classify_filename "other.mp3" [] [] true true true false sampleTrack id false).events ∧
    Ev.upsertAlbum ∉ (classify_filename "other.mp3" [] [] true true true false sampleTrack id false).events ∧
    Ev.upsertTrack ∉ (classify_filename "other.mp3" [] [] true true true false sampleTrack id false).events ∧
    Ev.infer ∈ (classify_filename "other.mp3" [] [] true true true false sampleTrack id false).events :=
  C5_dry_run_no_mutation "other.mp3" [] [] true true false sampleTrack id false
    (by decide) (by decide)

/-! ## Batch interrupt handling (`src/src/cli.py`, `cmd_process`)

`cmd_process` initializes `files_processed = 0`, then runs
`files_processed = asyncio.run(process_files(...))` inside a `try`. When the
operator interrupts, `asyncio.run` raises `KeyboardInterrupt` and the
assignment never completes, so the `except` handler observes the initial `0`
no matter how many assets the batch had already fully persisted. -/

/-- Whether the `except KeyboardInterrupt` handler of `cmd_process` calls
`push_metadata` (`if not args.no_sync and files_processed > 0`).
`persistedBeforeInterrupt` is the number of assets the interrupted batch had
already fully persisted; the handler cannot see it, because the only variable
it reads is `files_processed`, still holding its pre-`try` value `0`. -/
def cmd_process_interrupt_push (no_sync : Bool) (_persistedBeforeInterrupt : Nat) : Bool :=
  let files_processed : Nat := 0
  !no_sync && decide (files_processed > 0)

/-- C6 is violated by the code: on a `KeyboardInterrupt` the handler's guard
`files_processed > 0` always reads the initial `0`, so `push_metadata` is never
called — however many assets were fully persisted, and even with sync
enabled. -/
theorem C6_interrupt_never_pushes (persistedBeforeInterrupt : Nat) :
    cmd_process_interrupt_push false persistedBeforeInterrupt = false := rfl

/-! ## Sync manager (`src/src/utils/git_sync.py`, `push_metadata`) -/

/-- A filesystem/network action `push_metadata` can perform, in order. -/
inductive SyncEvent where
  | cloneRepo    -- `git clone` (inside `_ensure_repo_cloned`)
  | copyToRepo   -- `_sync_file_to_repo` for the two table files
  | gitStatus    -- `git status --porcelain`
  | gitAdd       -- `git add metadata.csv albums.csv`
  | gitCommit    -- `git commit -m ...`
  | gitPush      -- `git push`
deriving DecidableEq, Repr

/-- Oracle outcomes of the git subprocesses. -/
structure GitWorld where
  cloneValid : Bool                 -- the local clone exists and has a `.git`
  statusClean : Bool                -- `git status --porcelain` printed nothing
  commitExitZero : Bool             -- `git commit` exit code 0
  commitSaysNothingToCommit : Bool  -- "nothing to commit" appears in its stdout
  pushExitZero : Bool               -- `git push` exit code 0
deriving DecidableEq, Repr

/-- `push_metadata()`: `if not repo_url: return False` before taking the lock
or touching the filesystem; otherwise clone-if-needed, copy the two tables in,
commit and push, downgrading commit/push failures to a `False` return. -/
def push_metadata (sync_repo : Option String) (w : GitWorld) : Bool × List SyncEvent :=
  if !pyTruthyStr sync_repo then (false, [])
  else
    let ev := (if w.cloneValid then [] else [SyncEvent.cloneRepo])
                ++ [SyncEvent.copyToRepo, SyncEvent.gitStatus]
    if w.statusClean then (true, ev)
    else
      let ev := ev ++ [SyncEvent.gitAdd, SyncEvent.gitCommit]
      if !w.commitExitZero && !w.commitSaysNothingToCommit then (false, ev)
      else
        let ev := ev ++ [SyncEvent.gitPush]
        if !w.pushExitZero then (false, ev) else (true, ev)

/-- C9: with no shared repository configured (unset or empty URL),
`push_metadata` returns the not-configured signal `False` having performed no
action at all: no clone, no copy, no status/add/commit/push. -/
theorem C9_push_unconfigured_noop (sync_repo : Option String) (w : GitWorld)
    (h : pyTruthyStr sync_repo = false) :
    push_metadata sync_repo w = (false, []) := by
  simp [push_metadata, h]

/-- Witness for C9 with an unset repository URL. -/
theorem C9_push_unconfigured_noop_witness :
    push_metadata none ⟨true, false, true, false, true⟩ = (false, []) :=
  C9_push_unconfigured_noop none ⟨true, false, true, false, true⟩ (by decide)

/-! ## Comment-merge of the processed marker (`src/src/utils/file_metadata.py`) -/

/-- `PROCESSED_MARKER` from `src/src/utils/constants.py`. -/
def PROCESSED_MARKER : String := "Processed by song-classifier"

/-- The shapes the pre-existing comment tag value can take when handed to
`_merge_comment` (mutagen returns `None`, a string, or a list of strings for
the FLAC/MP4/Opus/Vorbis comment tags). -/
inductive MergeInput where
  | noneVal
  | strVal (s : String)
  | listVal (vs : List String)
deriving DecidableEq, Repr

/-- The string values `_merge_comment` collects from its `existing`
argument. -/
def mergeInputValues : MergeInput → List String
  | .noneVal => []
  | .strVal s => [s]
  | .listVal vs => vs

/-- `_merge_comment(existing, marker)`: collect the existing values, append
the marker only if it is not already an element, and return the (necessarily
non-empty) list — `values or [marker]` guards the impossible empty case. -/
def merge_comment (existing : MergeInput) (marker : String) : List String :=
  let values := mergeInputValues existing
  let values2 := if marker ∈ values then values else values ++ [marker]
  if values2.isEmpty then [marker] else values2

/-- The comment-tag update performed by `_write_flac`, `_write_mp4`,
`_write_ogg_opus` and `_write_ogg_vorbis` (each calls
`_merge_comment(existing_comment, PROCESSED_MARKER)`). -/
def write_tag_comment (existing : MergeInput) : List String :=
  merge_comment existing PROCESSED_MARKER

/-- `pat in s` on Python strings: `pat` occurs contiguously in `s`. -/
def listContainsSub : List Char → List Char → Bool
  | _, [] => true
  | [], _ :: _ => false
  | c :: rest, p :: ps => (p :: ps).isPrefixOf (c :: rest) || listContainsSub rest (p :: ps)

/-- Python `pat in s` for strings. -/
def pyInStr (pat s : String) : Bool := listContainsSub s.data pat.data

/-- `_has_marker_in_list(texts, PROCESSED_MARKER)` over the text values of one
ID3 `COMM` frame: a substring match against each value. -/
def mp3HasMarkerInTexts (texts : List String) : Bool :=
  texts.any (fun v => pyInStr PROCESSED_MARKER v)

/-- One ID3 `COMM` frame: mutagen keys it by `HashKey = "COMM:desc:lang"` and
carries a list of text values. -/
structure CommFrame where
  desc : String
  lang : String
  text : List String
deriving DecidableEq, Repr

/-- Whether any `COMM` frame's text contains the marker — the
`for comm in id3.getall("COMM")` loop of `_write_mp3`. -/
def mp3HasMarker (frames : List CommFrame) : Bool :=
  frames.any (fun f => mp3HasMarkerInTexts f.text)

/-- The frame `COMM(encoding=3, lang="eng", desc="song-classifier",
text=PROCESSED_MARKER)` built by `_write_mp3`. -/
def markerFrame : CommFrame :=
  { desc := "song-classifier", lang := "eng", text := [PROCESSED_MARKER] }

/-- `ID3.add(frame)` is the dict assignment `self[frame.HashKey] = frame`: it
*replaces* an existing frame with the same `desc`/`lang` key (keeping its
position, per dict insertion order), and appends otherwise. -/
def id3Add (frames : List CommFrame) (fr : CommFrame) : List CommFrame :=
  match frames with
  | [] => [fr]
  | g :: rest =>
      if g.desc == fr.desc && g.lang == fr.lang then fr :: rest
      else g :: id3Add rest fr

/-- The `COMM`-frame update in `_write_mp3`: if no existing frame's text
contains the marker, `id3.add` the marker frame — replacing any pre-existing
frame keyed `COMM:song-classifier:eng`, appending otherwise. -/
def write_mp3_comm (frames : List CommFrame) : List CommFrame :=
  if mp3HasMarker frames then frames
  else id3Add frames markerFrame

theorem isPrefixOf_self (l : List Char) : l.isPrefixOf l = true := by
  induction l with
  | nil => rfl
  | cons c rest ih => simp [List.isPrefixOf, ih]

theorem pyInStr_self (s : String) : pyInStr s s = true := by
  unfold pyInStr
  cases h : s.data with
  | nil => rfl
  | cons c rest => simp [listContainsSub, isPrefixOf_self]

/-- The frame `id3.add` inserts is always present afterwards. -/
theorem id3Add_mem_added (frames : List CommFrame) (fr : CommFrame) :
    fr ∈ id3Add frames fr := by
  induction frames with
  | nil => simp [id3Add]
  | cons g rest ih =>
      by_cases h : (g.desc == fr.desc && g.lang == fr.lang) = true
      · simp [id3Add, h]
      · simp only [id3Add, h, Bool.false_eq_true, if_false, List.mem_cons]
        exact Or.inr ih

/-- `id3.add` preserves every frame whose `desc`/`lang` key differs from the
added frame's. -/
theorem id3Add_preserves (frames : List CommFrame) (fr g : CommFrame)
    (hg : g ∈ frames) (hne : ¬(g.desc = fr.desc ∧ g.lang = fr.lang)) :
    g ∈ id3Add frames fr := by
  induction frames with
  | nil => simp at hg
  | cons h0 rest ih =>
      by_cases hk : (h0.desc == fr.desc && h0.lang == fr.lang) = true
      · simp only [id3Add, hk, if_true, List.mem_cons]
        rcases List.mem_cons.mp hg with hgh | hgr
        · subst hgh
          simp only [Bool.and_eq_true, beq_iff_eq] at hk
          exact absurd hk hne
        · exact Or.inr hgr
      · simp only [id3Add, hk, Bool.false_eq_true, if_false, List.mem_cons]
        rcases List.mem_cons.mp hg with hgh | hgr
        · exact Or.inl hgh
        · exact Or.inr (ih hgr)

/-- C7, as stated, is false on MP3: a pre-existing `COMM` frame with the
sentinel's own key (`desc="song-classifier"`, `lang="eng"`) whose text lacks
the marker is *replaced* by `ID3.add`, discarding its comment value
`"hello"` — after writing, no comment value `"hello"` remains in any frame. -/
theorem C7_counterexample :
    write_mp3_comm [CommFrame.mk "song-classifier" "eng" ["hello"]] = [markerFrame] ∧
    ¬ ∃ fr ∈ write_mp3_comm [CommFrame.mk "song-classifier" "eng" ["hello"]],
        "hello" ∈ fr.text := by
  constructor
  · decide
  · decide

/-- C7 (amended: on MP3, a pre-existing frame carrying the sentinel's own
`desc`/`lang` key and no marker is replaced; everything else is preserved):
on the FLAC/MP4/Opus/Vorbis `_merge_comment` path the old values are a prefix
of the new ones, the marker is among the written values, and the merge is
idempotent; on the MP3 `COMM` path the marker is present after writing, the
update is idempotent when the marker is already among a frame's text values,
and every frame not keyed `COMM:song-classifier:eng` is preserved. -/
theorem C7_marker_merge_amended (e : MergeInput) (frames : List CommFrame) :
    mergeInputValues e <+: write_tag_comment e ∧
    PROCESSED_MARKER ∈ write_tag_comment e ∧
    (PROCESSED_MARKER ∈ mergeInputValues e → write_tag_comment e = mergeInputValues e) ∧
    mp3HasMarker (write_mp3_comm frames) = true ∧
    ((∃ fr ∈ frames, PROCESSED_MARKER ∈ fr.text) → write_mp3_comm frames = frames) ∧
    (∀ fr ∈ frames, ¬(fr.desc = "song-classifier" ∧ fr.lang = "eng") →
      fr ∈ write_mp3_comm frames) := by
  refine ⟨?_, ?_, ?_, ?_, ?_, ?_⟩
  · by_cases hm : PROCESSED_MARKER ∈ mergeInputValues e
    · have : write_tag_comment e = mergeInputValues e := by
        have hne : (mergeInputValues e).isEmpty = false := by
          cases hl : mergeInputValues e with
          | nil => rw [hl] at hm; simp at hm
          | cons a l => rfl
        simp [write_tag_comment, merge_comment, hm, hne]
      rw [this]
    · have : write_tag_comment e = mergeInputValues e ++ [PROCESSED_MARKER] := by
        simp [write_tag_comment, merge_comment, hm]
      rw [this]
      exact List.prefix_append _ _
  · by_cases hm : PROCESSED_MARKER ∈ mergeInputValues e
    · have hne : (mergeInputValues e).isEmpty = false := by
        cases hl : mergeInputValues e with
        | nil => rw [hl] at hm; simp at hm
        | cons a l => rfl
      simp [write_tag_comment, merge_comment, hm, hne]
    · simp [write_tag_comment, merge_comment, hm]
  · intro hm
    have hne : (mergeInputValues e).isEmpty = false := by
      cases hl : mergeInputValues e with
      | nil => rw [hl] at hm; simp at hm
      | cons a l => rfl
    simp [write_tag_comment, merge_comment, hm, hne]
  · by_cases hf : mp3HasMarker frames = true
    · simp [write_mp3_comm, hf]
    · have hmtext : mp3HasMarkerInTexts markerFrame.text = true := by
        simp [mp3HasMarkerInTexts, markerFrame, pyInStr_self]
      have hw : write_mp3_comm frames = id3Add frames markerFrame := by
        simp [write_mp3_comm, hf]
      rw [hw]
      simp only [mp3HasMarker, List.any_eq_true]
      exact ⟨markerFrame, id3Add_mem_added frames markerFrame, hmtext⟩
  · rintro ⟨fr, hfr, hmem⟩
    have hf : mp3HasMarker frames = true := by
      simp only [mp3HasMarker, List.any_eq_true]
      exact ⟨fr, hfr, by
        simp only [mp3HasMarkerInTexts, List.any_eq_true]
        exact ⟨PROCESSED_MARKER, hmem, pyInStr_self _⟩⟩
    simp [write_mp3_comm, hf]
  · intro fr hfr hne
    by_cases hf : mp3HasMarker frames = true
    · simp only [write_mp3_comm, hf, if_true]
      exact hfr
    · simp only [write_mp3_comm, hf, Bool.false_eq_true, if_false]
      exact id3Add_preserves frames markerFrame fr hfr hne

/-- Witness for C7's amended theorem: a FLAC-style comment list already
holding the marker (with another value present) is left unchanged, an MP3
frame set already holding the marker is left unchanged, and a frame keyed
differently from the sentinel's survives the MP3 write. -/
theorem C7_marker_merge_amended_witness :
    write_tag_comment (MergeInput.listVal ["existing comment", PROCESSED_MARKER])
      = ["existing comment", PROCESSED_MARKER] ∧
    write_mp3_comm [markerFrame] = [markerFrame] ∧
    CommFrame.mk "other" "eng" ["hello"]
      ∈ write_mp3_comm [CommFrame.mk "other" "eng" ["hello"]] :=
  ⟨(C7_marker_merge_amended (MergeInput.listVal ["existing comment", PROCESSED_MARKER])
      [markerFrame]).2.2.1 (by simp [mergeInputValues]),
   (C7_marker_merge_amended (MergeInput.listVal ["existing comment", PROCESSED_MARKER])
      [markerFrame]).2.2.2.2.1 ⟨markerFrame, by simp, by simp [markerFrame]⟩,
   (C7_marker_merge_amended (MergeInput.listVal ["existing comment", PROCESSED_MARKER])
      [CommFrame.mk "other" "eng" ["hello"]]).2.2.2.2.2
      (CommFrame.mk "other" "eng" ["hello"]) (by simp) (by decide)⟩

/-! ## Local transport (`src/src/utils/file_transport.py`)

`LocalTransport.list_files` walks a directory tree and yields, for every file
whose name passes `is_audio_file`, the string
`full_path.replace(initial_path, "").lstrip(os.sep)`. The filesystem is
embedded as a tree of named entries; `os.listdir` order is the child-list
order. -/

/-- `AUDIO_EXTENSIONS` (a `set` in Python; embedded as the list literal's
order, membership is all that is used). -/
def AUDIO_EXTENSIONS : List String :=
  [".mp3", ".flac", ".m4a", ".mp4", ".opus", ".ogg", ".wav", ".aiff", ".aif"]

/-- ASCII `str.lower` on one character (the Python original is Unicode-aware;
the recognized extensions and the paths of interest are ASCII). -/
def pyCharLower (c : Char) : Char :=
  if 'A' ≤ c ∧ c ≤ 'Z' then Char.ofNat (c.toNat + 32) else c

/-- `path.lower()`. -/
def pyLower (s : String) : String := String.mk (s.data.map pyCharLower)

/-- The extension part of `os.path.splitext`: the suffix of the last path
component starting at its last dot, where leading dots of the component never
begin an extension. -/
def splitext_ext (p : String) : String :=
  let base := (p.data.reverse.takeWhile (fun c => c ≠ '/')).reverse
  let rest := base.dropWhile (fun c => c = '.')
  if rest.contains '.' then
    String.mk ('.' :: (rest.reverse.takeWhile (fun c => c ≠ '.')).reverse)
  else ""

/-- `is_audio_file`: lower-case the whole path, split off its extension, test
membership in the fixed set. -/
def is_audio_file (path : String) : Bool :=
  AUDIO_EXTENSIONS.contains (splitext_ext (pyLower path))

/-- Python `s.replace(pat, repl)` on character lists: replace every
non-overlapping occurrence left to right. The fuel is the input length, enough
for any non-empty pattern. -/
def pyReplaceAux : Nat → List Char → List Char → List Char → List Char
  | 0, s, _, _ => s
  | _ + 1, [], _, _ => []
  | fuel + 1, c :: rest, pat, repl =>
      if pat.isPrefixOf (c :: rest) then
        repl ++ pyReplaceAux fuel ((c :: rest).drop pat.length) pat repl
      else c :: pyReplaceAux fuel rest pat repl

/-- Python `s.replace(pat, repl)`. The `list_files` call sites always pass the
non-empty `initial_path` as the pattern (Python's empty-pattern behavior,
interleaving `repl`, is therefore not modelled). -/
def pyReplace (s pat repl : String) : String :=
  if pat.isEmpty then s else String.mk (pyReplaceAux s.data.length s.data pat.data repl.data)

/-- `.lstrip(os.sep)` on a POSIX host: drop every leading `/`. -/
def lstripSep (s : String) : String := String.mk (s.data.dropWhile (fun c => c = '/'))

/-- `os.path.join(path, entry)` for a non-empty base without a trailing
separator and a bare entry name, the only shape `list_files` produces. -/
def pyJoin (path entry : String) : String := path ++ "/" ++ entry

/-- `relative_path = full_path.replace(initial_path, "").lstrip(os.sep)`
(line 161 of `file_transport.py`). -/
def relative_path_of (full_path initial_path : String) : String :=
  lstripSep (pyReplace full_path initial_path "")

/-- A filesystem entry: a plain file or a directory with its `os.listdir`
entries. -/
inductive FsTree where
  | file (name : String)
  | dir (name : String) (children : List FsTree)
deriving Repr

/-- The body of `LocalTransport.list_files`: walk the entries of the directory
at `path`, recursing into subdirectories and yielding
`relative_path_of (os.path.join ...) initial_path` for audio files. -/
def listFilesDir : List FsTree → String → String → List String
  | [], _, _ => []
  | FsTree.file n :: rest, path, initialPath =>
      (if is_audio_file n then [relative_path_of (pyJoin path n) initialPath] else [])
        ++ listFilesDir rest path initialPath
  | FsTree.dir n children :: rest, path, initialPath =>
      listFilesDir children (pyJoin path n) initialPath
        ++ listFilesDir rest path initialPath

/-- `LocalTransport.list_files(path)` with `initial_path` defaulted to
`path`; `entries` are the listed root's contents. -/
def local_list_files (entries : List FsTree) (path : String) : List String :=
  listFilesDir entries path path

/-- C8 is violated by the code: for the root `/a` containing a subdirectory
`a` with the audio file `b.mp3`, `str.replace` deletes *every* occurrence of
the root string from the full path `/a/a/b.mp3`, so `list_files` yields
`b.mp3` instead of the true relative path `a/b.mp3`. -/
theorem C8_relative_path_bug :
    local_list_files [FsTree.dir "a" [FsTree.file "b.mp3"]] "/a" = ["b.mp3"] ∧
    ("b.mp3" : String) ≠ "a/b.mp3" := by
  constructor
  · simp only [local_list_files, listFilesDir]
    decide
  · decide
